import Mathlib

/-!
Verification of the EAV (entity-attribute-value) layer: a shallow embedding of
`eav/eav.py`, `eav/models.py`, `eav/queryset.py` and `eav/utils.py`.

Python dictionaries are modelled as association lists (`List (String × α)`)
with insertion-order-preserving overwrite (`dinsert`), matching CPython dict
semantics.  Python values are the inductive `PyVal`; exceptions are the
inductive `PyError` carried in `Except`.  The relational Value store is a
`List Value`; Django queryset filtering is predicate filtering over it.
Randomly generated row identifiers (`Entity.create_row_id` retries `uuid4`
until unused) are modelled by passing the chosen fresh identifier explicitly.
-/

deriving instance DecidableEq for Except

namespace EAV

/-- Runtime types of the implementation language that field values are
checked against (`DATA_TYPES_MAP` in `eav/utils.py` maps into these). -/
inductive PyType where
  | str
  | int
  | float
  | bool
  | date
  | datetime
  | dict
  | list
deriving DecidableEq

/-- Python runtime values, restricted to the shapes the EAV layer stores:
`PyVal.none` is Python `None`; `vdict` models a json payload; `vlist`
models a list-of-text payload; the payload of `vfloat` is opaque (no float
arithmetic occurs in the embedded code). -/
inductive PyVal where
  | none
  | vstr (s : String)
  | vint (n : Int)
  | vfloat (payload : Int)
  | vbool (b : Bool)
  | vdate (d : Nat)
  | vdatetime (d : Nat)
  | vdict (entries : List (String × String))
  | vlist (entries : List String)
deriving DecidableEq

/-- Python `isinstance(value, ty)` on the embedded values, including the
subclass relations `bool <: int` and `datetime <: date`. -/
def isinstance : PyVal → PyType → Bool
  | PyVal.vstr _, PyType.str => true
  | PyVal.vint _, PyType.int => true
  | PyVal.vbool _, PyType.bool => true
  | PyVal.vbool _, PyType.int => true
  | PyVal.vfloat _, PyType.float => true
  | PyVal.vdate _, PyType.date => true
  | PyVal.vdatetime _, PyType.datetime => true
  | PyVal.vdatetime _, PyType.date => true
  | PyVal.vdict _, PyType.dict => true
  | PyVal.vlist _, PyType.list => true
  | _, _ => false

/-- Python truthiness of the embedded values. -/
def truthy : PyVal → Bool
  | PyVal.none => false
  | PyVal.vstr s => s != ""
  | PyVal.vint n => n != 0
  | PyVal.vfloat p => p != 0
  | PyVal.vbool b => b
  | PyVal.vdate _ => true
  | PyVal.vdatetime _ => true
  | PyVal.vdict entries => !entries.isEmpty
  | PyVal.vlist entries => !entries.isEmpty

/-- Exceptions raised by the embedded code. -/
inductive PyError where
  /-- `ValueError` from `Field.__set__`: `None` assigned to a required field. -/
  | requiredError (field : String)
  /-- `TypeError` from `Field.__set__`: value of the wrong type. -/
  | typeError (field : String)
  /-- `django.core.exceptions.FieldError` from `Query.__validate_query`. -/
  | fieldError (key : String)
  /-- `ValueError` from `create_values`/`update_values`: unknown attribute. -/
  | attributeMissing (key : String)
  /-- `AttributeError` from assigning to a setter-less property (the base
  class's read-only `pk` property). -/
  | attributeError (key : String)
  /-- uniqueness violation surfaced by `bulk_create`. -/
  | integrityError
  /-- `IndexError` re-raised by `ObjectQuerySet.__getitem__`. -/
  | indexError (entity : String)
  /-- the per-class `DoesNotExist` exception attached by `DynamicClassMeta`
  (declared by the source; never raised by any embedded operation). -/
  | doesNotExist (entity : String)
deriving DecidableEq

/-- Python dict lookup on an association list (first matching key). -/
def dlookup {α : Type} : List (String × α) → String → Option α
  | [], _ => Option.none
  | kv :: rest, k => if kv.1 = k then some kv.2 else dlookup rest k

/-- Python dict membership test. -/
def dcontains {α : Type} (m : List (String × α)) (k : String) : Bool :=
  (dlookup m k).isSome

/-- Python dict assignment `m[k] = v`: overwrite in place if the key exists
(keeping its position, as CPython does), otherwise append. -/
def dinsert {α : Type} : List (String × α) → String → α → List (String × α)
  | [], k, v => [(k, v)]
  | kv :: rest, k, v => if kv.1 = k then (k, v) :: rest else kv :: dinsert rest k v

/-- Python dict `pop(k)`. -/
def derase {α : Type} : List (String × α) → String → List (String × α)
  | [], _ => []
  | kv :: rest, k => if kv.1 = k then derase rest k else kv :: derase rest k

/-- Python `dict.update(other)`: insert the entries of `l` into `m` in order. -/
def dupdate {α : Type} (m : List (String × α)) : List (String × α) → List (String × α)
  | [] => m
  | kv :: rest => dupdate (dinsert m kv.1 kv.2) rest

/-- A Python dict comprehension `{key x: val x for x in l}` built on top of an
existing dict. -/
def buildMapFrom {β α : Type} (key : β → String) (val : β → α) :
    List (String × α) → List β → List (String × α)
  | m, [] => m
  | m, x :: xs => buildMapFrom key val (dinsert m (key x) (val x)) xs

/-- A Python dict comprehension `{key x: val x for x in l}`. -/
def buildMap {β α : Type} (key : β → String) (val : β → α) (l : List β) :
    List (String × α) :=
  buildMapFrom key val [] l

/-- The keys of an association list, in order. -/
def keys {α : Type} (m : List (String × α)) : List String :=
  m.map (fun kv => kv.1)

/-- An instance `__dict__` / keyword-argument dict: attribute name to value. -/
abbrev AttrMap := List (String × PyVal)

/-- Project the payload out of a non-error `Except` result. -/
def okPart {α : Type} : Except PyError α → Option α
  | Except.ok a => some a
  | Except.error _ => Option.none

/-! ## Schema catalog (`eav/models.py`) -/

/-- An `Attribute` row: a typed field definition belonging to an entity
(`data_type` is one of the `Attribute.DataTypes` strings). -/
structure Attr where
  name : String
  slug : String
  data_type : String
  required : Bool
deriving DecidableEq

/-- An `Entity` row together with its related attributes. -/
structure Entity where
  name : String
  slug : String
  attributes : List Attr
deriving DecidableEq

/-- The field descriptions `Entity._get_fields` returns: a synthetic required
string `id` field followed by one entry per attribute. -/
structure FieldInfo where
  name : String
  data_type : String
  required : Bool
deriving DecidableEq

/-- `Entity._get_fields`. -/
def Entity.getFields (e : Entity) : List FieldInfo :=
  ⟨"id", "string", true⟩ :: e.attributes.map (fun a => ⟨a.slug, a.data_type, a.required⟩)

/-- The `{attr.slug: attr}` dict built by `create_values`/`update_values`. -/
def attrsDict (e : Entity) : List (String × Attr) :=
  buildMap Attr.slug (fun a => a) e.attributes

/-- `Query.fields_map`: `{f['name']: f['data_type']}` over `_get_fields`. -/
def Entity.fieldsMap (e : Entity) : List (String × String) :=
  buildMap FieldInfo.name FieldInfo.data_type e.getFields

/-! ## Dynamic record builder (`eav/eav.py`, `eav/utils.py`) -/

/-- `DATA_TYPES_MAP` from `eav/utils.py` (note: `foreign_key` and
`many_to_many` are absent). -/
def DATA_TYPES_MAP : List (String × PyType) :=
  [("string", PyType.str), ("integer", PyType.int), ("float", PyType.float),
   ("boolean", PyType.bool), ("date", PyType.date), ("datetime", PyType.datetime),
   ("json", PyType.dict), ("file", PyType.str)]

/-- `DATA_TYPES_MAP.get(data_type, str)` as used by `init_field`. -/
def resolveFieldType (data_type : String) : PyType :=
  (dlookup DATA_TYPES_MAP data_type).getD PyType.str

/-- A `Field` descriptor (`eav/eav.py`): name, resolved type, required flag
and default (the constructor's `default` parameter defaults to `None`). -/
structure Field where
  name : String
  field_type : PyType
  required : Bool
  default : PyVal
deriving DecidableEq

/-- The validation performed by `Field.__set__` before it stores the value:
`ValueError` for `None` on a required field (checked first), `TypeError` for
a non-`None` value failing `isinstance`. -/
def Field.setError (f : Field) (value : PyVal) : Option PyError :=
  if value = PyVal.none ∧ f.required then some (PyError.requiredError f.name)
  else if value ≠ PyVal.none ∧ isinstance value f.field_type = false then
    some (PyError.typeError f.name)
  else Option.none

/-- `Field.__set__`: validate, then store into the instance `__dict__`. -/
def Field.set (f : Field) (dict : AttrMap) (value : PyVal) : Except PyError AttrMap :=
  match f.setError value with
  | some e => Except.error e
  | Option.none => Except.ok (dinsert dict f.name value)

/-- `Field.__get__` on an instance: `instance.__dict__.get(name, default)`. -/
def Field.get (f : Field) (dict : AttrMap) : PyVal :=
  (dlookup dict f.name).getD f.default

/-- `init_field` from `eav/eav.py`. -/
def init_field (f : FieldInfo) : Field :=
  ⟨f.name, resolveFieldType f.data_type, f.required, PyVal.none⟩

/-- The dynamically synthesized record class: its slug-derived name and its
`__fields__` dict of descriptors. -/
structure RecordClass where
  entitySlug : String
  fields : List (String × Field)
deriving DecidableEq

/-- `build_eav_class`: one descriptor per `_get_fields` entry, then the `id`
descriptor is overwritten with `Field("id", str, required=True)`. -/
def build_eav_class (e : Entity) : RecordClass :=
  ⟨e.slug, dinsert (buildMap FieldInfo.name init_field e.getFields) "id"
    ⟨"id", PyType.str, true, PyVal.none⟩⟩

/-- The error, if any, produced by `setattr(instance, key, value)` on a
`DynamicClass` instance: a key with a `Field` descriptor goes through
`Field.__set__` validation; the base class defines `pk` as a property with
no setter, a data descriptor whose assignment raises `AttributeError` (a
`Field` named `pk` in the subclass dict would shadow it, hence the order);
any other key is stored without validation.  (CPython object-protocol
dunder attributes such as `__dict__` lie outside the embedded attribute
namespace.) -/
def setattrError (cls : RecordClass) (key : String) (value : PyVal) : Option PyError :=
  match dlookup cls.fields key with
  | some f => f.setError value
  | Option.none =>
    if key = "pk" then some (PyError.attributeError key) else Option.none

/-- `setattr(instance, key, value)`: both descriptor fields and plain
attributes end up in the instance `__dict__` keyed by `key`. -/
def recordSetattr (cls : RecordClass) (dict : AttrMap) (key : String) (value : PyVal) :
    Except PyError AttrMap :=
  match setattrError cls key value with
  | some e => Except.error e
  | Option.none => Except.ok (dinsert dict key value)

/-- `getattr(instance, key)`: a `Field` descriptor returns the stored value
or the descriptor default; absent a shadowing field, `pk` invokes the base
class property, which returns `getattr(self, 'id', None)` regardless of the
instance `__dict__`; any other key is looked up in the instance `__dict__`
(`Option.none` models `AttributeError`). -/
def recordGetattr (cls : RecordClass) (dict : AttrMap) (key : String) : Option PyVal :=
  match dlookup cls.fields key with
  | some f => some (f.get dict)
  | Option.none =>
    if key = "pk" then
      some (match dlookup cls.fields "id" with
            | some f => f.get dict
            | Option.none => (dlookup dict "id").getD PyVal.none)
    else dlookup dict key

/-- `DynamicClass.__init__(**kwargs)` starting from a given `__dict__`:
assign each keyword argument in order via `setattr`. -/
def recordInitFrom (cls : RecordClass) : AttrMap → AttrMap → Except PyError AttrMap
  | d, [] => Except.ok d
  | d, kv :: rest =>
    match recordSetattr cls d kv.1 kv.2 with
    | Except.error e => Except.error e
    | Except.ok d' => recordInitFrom cls d' rest

/-- `DynamicClass.__init__(**kwargs)`: the resulting instance `__dict__`. -/
def recordInit (cls : RecordClass) (kwargs : AttrMap) : Except PyError AttrMap :=
  recordInitFrom cls [] kwargs

/-- The first error `recordInit` will hit, scanning the keyword arguments in
order (assignment failure does not depend on the dict built so far). -/
def initFirstErr (cls : RecordClass) : AttrMap → Option PyError
  | [] => Option.none
  | kv :: rest =>
    match setattrError cls kv.1 kv.2 with
    | some e => some e
    | Option.none => initFirstErr cls rest

/-! ## The value store (`Value` model in `eav/models.py`) -/

/-- A `Value` row: one field's worth of data for one logical row.  The ten
typed `value_*` columns are modelled as a dict keyed by column name; a column
absent from the dict holds its model-field default (`None`, except
`value_many_to_many`, whose default is the empty list). -/
structure Value where
  entity : String
  attr : Attr
  row_id : String
  columns : AttrMap
deriving DecidableEq

/-- The Django model-field default of a `value_*` column. -/
def columnDefault (col : String) : PyVal :=
  if col = "value_many_to_many" then PyVal.vlist [] else PyVal.none

/-- A freshly constructed `Value(entity=..., attribute=..., row_id=...)`. -/
def Value.mk0 (entitySlug : String) (a : Attr) (rid : String) : Value :=
  ⟨entitySlug, a, rid, []⟩

/-- `getattr(value, col)` for a `value_*` column. -/
def Value.getCol (v : Value) (col : String) : PyVal :=
  (dlookup v.columns col).getD (columnDefault col)

/-- The `value` property setter: store into the column selected by the
attribute's data type. -/
def Value.setVal (v : Value) (pv : PyVal) : Value :=
  { v with columns := dinsert v.columns ("value_" ++ v.attr.data_type) pv }

/-- The `value` property getter: read the column selected by the attribute's
data type (its default is `None`, or the empty list for `many_to_many`).
The source raises `ValueError` for a data type outside the ten columns; the
claims only involve the declared data types, for which the getter is total. -/
def Value.getVal (v : Value) : PyVal :=
  (dlookup v.columns ("value_" ++ v.attr.data_type)).getD
    (if v.attr.data_type = "many_to_many" then PyVal.vlist [] else PyVal.none)

/-- The `unique_together` key `(entity, attribute, row_id)` of a `Value`. -/
def valueKey (v : Value) : String × String × String :=
  (v.entity, v.attr.slug, v.row_id)

/-- `entity.values`: the related manager over the store. -/
def entityValues (e : Entity) (store : List Value) : List Value :=
  store.filter (fun v => v.entity == e.slug)

/-- Whether a `Value` satisfies one compiled predicate `key = pv`
(`attribute__slug` and `row_id` address the relation columns, everything
else a typed `value_*` column). -/
def matchesPred (v : Value) (key : String) (pv : PyVal) : Bool :=
  if key = "attribute__slug" then pv == PyVal.vstr v.attr.slug
  else if key = "row_id" then pv == PyVal.vstr v.row_id
  else v.getCol key == pv

/-- Whether a `Value` satisfies every predicate of a compiled filter dict. -/
def matchesAll (v : Value) (preds : AttrMap) : Bool :=
  preds.all (fun kv => matchesPred v kv.1 kv.2)

/-- `.filter(**filters).exclude(**excludes)` over a list of values.  An empty
`exclude` call is a no-op in Django rather than excluding everything. -/
def applyFilters (vs : List Value) (filters excludes : AttrMap) : List Value :=
  let fs := vs.filter (fun v => matchesAll v filters)
  if excludes.isEmpty then fs else fs.filter (fun v => !matchesAll v excludes)

/-- `.values_list('row_id', flat=True).distinct()`: row identifiers in first
encounter order, deduplicated. -/
def distinctFirstAux : List String → List String → List String
  | [], _ => []
  | x :: xs, seen =>
    if x ∈ seen then distinctFirstAux xs seen else x :: distinctFirstAux xs (x :: seen)

/-- Deduplicate, keeping first occurrences. -/
def distinctFirst (l : List String) : List String :=
  distinctFirstAux l []

/-! ## Query translator (`Query` in `eav/queryset.py`) -/

/-- The mutable state of a `Query` builder (its `meta`-derived fields are the
entity itself; `order_by`/`select_related` are structurally present in the
source but never consulted by execution and are omitted). -/
structure QueryState where
  query : AttrMap
  negated_query : AttrMap
  query_id : Option PyVal
  negated_query_id : Option PyVal
deriving DecidableEq

/-- A fresh `Query(meta)` state. -/
def QueryState.init : QueryState :=
  ⟨[], [], Option.none, Option.none⟩

/-- `Query.get_id`: the special `id`/`pk` entry of the kwargs, `id` preferred,
present only when its value is truthy (the source's fall-through returns the
`NotImplementedError` class with a `None` id, which every caller treats as
no id). -/
def getQueryId (kwargs : AttrMap) : Option (String × PyVal) :=
  if truthy ((dlookup kwargs "id").getD PyVal.none) then
    some ("id", (dlookup kwargs "id").getD PyVal.none)
  else if truthy ((dlookup kwargs "pk").getD PyVal.none) then
    some ("pk", (dlookup kwargs "pk").getD PyVal.none)
  else Option.none

/-- The first key of a filter dict that is not in `fields_map`, scanning in
insertion order (`Query.__validate_query`'s loop). -/
def firstBadKey (fm : List (String × String)) : AttrMap → Option String
  | [] => Option.none
  | kv :: rest => if dcontains fm kv.1 then firstBadKey fm rest else some kv.1

/-- `Query.__validate_query`: on the first unresolvable key the offending
dict is reset to empty and a `FieldError` naming the key is raised (the
positive filter dict is checked before the negated one). -/
def validateQuery (fm : List (String × String)) (q : QueryState) :
    QueryState × Option PyError :=
  match firstBadKey fm q.query with
  | some k => ({ q with query := [] }, some (PyError.fieldError k))
  | Option.none =>
    match firstBadKey fm q.negated_query with
    | some k => ({ q with negated_query := [] }, some (PyError.fieldError k))
    | Option.none => (q, Option.none)

/-- `Query.update(**kwargs)`.  Mirrors the source faithfully, including the
slip on the positive branch: when a truthy `id`/`pk` is present, *both*
branches store it into `negated_query_id` (`self.query_id` is never assigned
anywhere in the source), and the special key is popped from the kwargs
before they are merged into the filter dict.  Returns the post-call state
and the `FieldError`, if any, that validation raised. -/
def queryUpdate (fm : List (String × String)) (q : QueryState) (negate : Bool)
    (kwargs : AttrMap) : QueryState × Option PyError :=
  let q1 :=
    match getQueryId kwargs with
    | some kid =>
      if negate then
        { q with negated_query_id := some kid.2,
                 negated_query := dupdate q.negated_query (derase kwargs kid.1) }
      else
        { q with negated_query_id := some kid.2,
                 query := dupdate q.query (derase kwargs kid.1) }
    | Option.none =>
      if negate then { q with negated_query := dupdate q.negated_query kwargs }
      else { q with query := dupdate q.query kwargs }
  validateQuery fm q1

/-- The loop body of `Query.__prepare_query`: each key/value pair writes the
pair of predicates `attribute__slug = key` and `value_<data type> = value`
into one shared dict (so a later key overwrites the `attribute__slug`
predicate of an earlier one). -/
def prepareQueryAux (fm : List (String × String)) : AttrMap → AttrMap → AttrMap
  | acc, [] => acc
  | acc, kv :: rest =>
    prepareQueryAux fm
      (dinsert (dinsert acc "attribute__slug" (PyVal.vstr kv.1))
        ("value_" ++ ((dlookup fm kv.1).getD "")) kv.2) rest

/-- `Query.__prepare_query`: compiled positive and negated predicate dicts. -/
def prepareQuery (fm : List (String × String)) (q : QueryState) : AttrMap × AttrMap :=
  (prepareQueryAux fm [] q.query, prepareQueryAux fm [] q.negated_query)

/-- `Query.prepare`: add the stored row-identifier constraints.  Only
`negated_query_id` can ever be set (see `queryUpdate`), and it lands in the
exclusion dict; the `query_id` branch is dead code in the source. -/
def prepare (fm : List (String × String)) (q : QueryState) : AttrMap × AttrMap :=
  let fe := prepareQuery fm q
  let excludes :=
    match q.negated_query_id with
    | some v => if truthy v then dinsert fe.2 "row_id" v else fe.2
    | Option.none => fe.2
  let filters :=
    match q.query_id with
    | some v => if truthy v then dinsert fe.1 "row_id" v else fe.1
    | Option.none => fe.1
  (filters, excludes)

/-! ## Result materializer (`ObjectQuerySet` in `eav/queryset.py`) -/

/-- An `ObjectQuerySet` builder: its `Query` state and the memoized result,
`Option.none` standing for Python `None` (never materialized, or the last
materialization matched zero rows).  Each cached record is the instance
`__dict__` of a materialized `DynamicClass` object. -/
structure OQS where
  query : QueryState
  result_cache : Option (List AttrMap)
deriving DecidableEq

/-- A fresh `ObjectQuerySet(meta)`. -/
def OQS.init : OQS :=
  ⟨QueryState.init, Option.none⟩

/-- Candidate row discovery in `fetch`: distinct `row_id`s of the entity's
values passing the compiled filters and exclusions. -/
def candidateRows (e : Entity) (store : List Value) (q : QueryState) : List String :=
  let fe := prepare e.fieldsMap q
  distinctFirst ((applyFilters (entityValues e store) fe.1 fe.2).map (fun v => v.row_id))

/-- Row reconstruction in `fetch`: every value of the entity sharing the row
identifier is folded into a slug-to-value dict. -/
def buildRow (entityVals : List Value) (rid : String) : AttrMap :=
  buildMap (fun v => v.attr.slug) Value.getVal
    (entityVals.filter (fun v => v.row_id == rid))

/-- The record-construction loop of `fetch`: each grouped row dict, with the
row identifier added under `id`, is passed to the dynamic class constructor
(whose field validation can raise). -/
def buildRecords (cls : RecordClass) : List (String × AttrMap) → Except PyError (List AttrMap)
  | [] => Except.ok []
  | rr :: rest =>
    match recordInit cls (dinsert rr.2 "id" (PyVal.vstr rr.1)) with
    | Except.error e => Except.error e
    | Except.ok d =>
      match buildRecords cls rest with
      | Except.error e => Except.error e
      | Except.ok ds => Except.ok (d :: ds)

/-- The query execution inside `fetch`: the new value of `result_cache`.
When no candidate rows match, the cache is set to `None` (not to an empty
list) by the source's `else` branch. -/
def fetchCompute (e : Entity) (store : List Value) (q : QueryState) :
    Except PyError (Option (List AttrMap)) :=
  let rows := candidateRows e store q
  if rows.isEmpty then Except.ok Option.none
  else
    match buildRecords (build_eav_class e)
        (rows.map (fun rid => (rid, buildRow (entityValues e store) rid))) with
    | Except.error err => Except.error err
    | Except.ok recs => Except.ok (some recs)

/-- `ObjectQuerySet.fetch`: run the query only when `result_cache is None`.
The returned flag records whether this call executed the query (used to
state the caching claims). -/
def fetch (e : Entity) (store : List Value) (s : OQS) : Except PyError (OQS × Bool) :=
  match s.result_cache with
  | some _ => Except.ok (s, false)
  | Option.none =>
    match fetchCompute e store s.query with
    | Except.error err => Except.error err
    | Except.ok c => Except.ok ({ s with result_cache := c }, true)

/-- `ObjectQuerySet._clone(**kwargs)` (also `filter`/`exclude`): merge the
criteria into the query state; the `FieldError` validation may raise is
returned alongside the mutated builder. -/
def OQS.clone (e : Entity) (s : OQS) (negate : Bool) (kwargs : AttrMap) :
    OQS × Option PyError :=
  let qe := queryUpdate e.fieldsMap s.query negate kwargs
  ({ s with query := qe.1 }, qe.2)

/-- `ObjectQuerySet.__getitem__`: fetch, then index the cache.  An absent
cache (`None`) raises `TypeError`, which the source catches and turns into
returning `None`; an out-of-range index raises `IndexError`. -/
def OQS.getitem (e : Entity) (store : List Value) (s : OQS) (i : Nat) :
    Except PyError (OQS × Option AttrMap) :=
  match fetch e store s with
  | Except.error err => Except.error err
  | Except.ok sr =>
    match sr.1.result_cache with
    | Option.none => Except.ok (sr.1, Option.none)
    | some xs =>
      match xs.get? i with
      | some r => Except.ok (sr.1, some r)
      | Option.none => Except.error (PyError.indexError e.slug)

/-- `ObjectQuerySet.get(**kwargs)`: `self._clone(**kwargs).fetch()[0]`. -/
def OQS.get (e : Entity) (store : List Value) (s : OQS) (kwargs : AttrMap) :
    Except PyError (OQS × Option AttrMap) :=
  match OQS.clone e s false kwargs with
  | (_, some err) => Except.error err
  | (s1, Option.none) =>
    match fetch e store s1 with
    | Except.error err => Except.error err
    | Except.ok sr => OQS.getitem e store sr.1 0

/-! ## Row mutation (`Entity.create_values` / `Entity.update_values` and
`ObjectQuerySet.create` / `ObjectQuerySet.update`) -/

/-- `bulk_create`'s uniqueness screening: a batch conflicts when one of its
rows collides with a persisted `(entity, attribute, row_id)` triple, or two
rows of the batch collide with each other. -/
def allDistinctKeys : List Value → Bool
  | [] => true
  | v :: vs => (!vs.any (fun w => decide (valueKey w = valueKey v))) && allDistinctKeys vs

/-- Whether persisting `vals` into `store` violates the `unique_together`
constraint of `Value`. -/
def integrityConflict (store vals : List Value) : Bool :=
  vals.any (fun v => store.any (fun w => decide (valueKey w = valueKey v)))
    || !allDistinctKeys vals

/-- The `Value` built for one provided key/value pair in `create_values`
(the fallback attribute is never reached when the key resolves). -/
def providedValue (e : Entity) (rid : String) (kv : String × PyVal) : Value :=
  match dlookup (attrsDict e) kv.1 with
  | some a => (Value.mk0 e.slug a rid).setVal kv.2
  | Option.none => Value.mk0 e.slug ⟨"", "", "string", false⟩ rid

/-- The first loop of `create_values`: build one `Value` per provided pair,
raising `ValueError` at the first key that is not an attribute slug. -/
def mapValues (e : Entity) (rid : String) : AttrMap → Except PyError (List Value)
  | [] => Except.ok []
  | kv :: rest =>
    if dcontains (attrsDict e) kv.1 then
      match mapValues e rid rest with
      | Except.error err => Except.error err
      | Except.ok vs => Except.ok (providedValue e rid kv :: vs)
    else Except.error (PyError.attributeMissing kv.1)

/-- The second loop of `create_values`: an empty placeholder `Value` for
every attribute of the entity that the input did not provide. -/
def createPlaceholders (e : Entity) (rid : String) (value_data : AttrMap) : List Value :=
  ((attrsDict e).filter (fun sa => !dcontains value_data sa.1)).map
    (fun sa => Value.mk0 e.slug sa.2 rid)

/-- `Entity.create_values(value_data)` with the fresh row identifier chosen
by `create_row_id` passed explicitly: provided values first, then an empty
placeholder `Value` for every attribute not provided, bulk-created together
(a uniqueness violation is surfaced as an error). -/
def create_values (e : Entity) (store : List Value) (rid : String)
    (value_data : AttrMap) : Except PyError (String × List Value) :=
  match mapValues e rid value_data with
  | Except.error err => Except.error err
  | Except.ok provided =>
    let vals := provided ++ createPlaceholders e rid value_data
    if integrityConflict store vals then Except.error PyError.integrityError
    else Except.ok (rid, vals)

/-- The validation loop at the top of `update_values`. -/
def firstMissingAttr (e : Entity) : AttrMap → Option String
  | [] => Option.none
  | kv :: rest =>
    if dcontains (attrsDict e) kv.1 then firstMissingAttr e rest else some kv.1

/-- The per-key loop of `update_values`: mutate the existing `Value` for a
key that already has one, create a new `Value` otherwise; the flag tags the
update (`true`) versus create (`false`) batch. -/
def updatePairs (e : Entity) (rid : String) (existingDict : List (String × Value)) :
    AttrMap → Except PyError (List (Bool × Value))
  | [] => Except.ok []
  | kv :: rest =>
    match dlookup existingDict kv.1 with
    | some ev =>
      match updatePairs e rid existingDict rest with
      | Except.error err => Except.error err
      | Except.ok ps => Except.ok ((true, ev.setVal kv.2) :: ps)
    | Option.none =>
      match dlookup (attrsDict e) kv.1 with
      | some a =>
        match updatePairs e rid existingDict rest with
        | Except.error err => Except.error err
        | Except.ok ps => Except.ok ((false, (Value.mk0 e.slug a rid).setVal kv.2) :: ps)
      | Option.none => Except.error (PyError.attributeMissing kv.1)

/-- `Entity.update_values(value_data, row_id)`: returns the store after the
bulk update and bulk create, the row identifier, and the touched values
(updated then created, the order the source concatenates them in).  The
model treats `bulk_update` as in-place persistence of the tracked values;
it does not model Django's validation of the `fields` argument (none of the
claims exercises the update path). -/
def update_values (e : Entity) (store : List Value) (value_data : AttrMap)
    (rid : String) : Except PyError (List Value × String × List Value) :=
  match firstMissingAttr e value_data with
  | some k => Except.error (PyError.attributeMissing k)
  | Option.none =>
    let existing := store.filter (fun v =>
      v.entity == e.slug && dcontains (attrsDict e) v.attr.slug && v.row_id == rid)
    let existingDict := buildMap (fun v => v.attr.slug) (fun v => v) existing
    match updatePairs e rid existingDict value_data with
    | Except.error err => Except.error err
    | Except.ok pairs =>
      let toUpdate := (pairs.filter (fun p => p.1)).map (fun p => p.2)
      let toCreate := (pairs.filter (fun p => !p.1)).map (fun p => p.2)
      let store1 := store.map (fun w =>
        match toUpdate.find? (fun u => decide (valueKey u = valueKey w)) with
        | some u => u
        | Option.none => w)
      if integrityConflict store1 toCreate then Except.error PyError.integrityError
      else Except.ok (store1 ++ toCreate, rid, toUpdate ++ toCreate)

/-- `ObjectQuerySet.__prepare_values`: fold the written values into a
slug-to-value dict, add the row identifier under `id`, and construct a
record instance from it (whose validation can raise). -/
def prepare_values (cls : RecordClass) (rid : String) (vals : List Value) :
    Except PyError AttrMap :=
  recordInit cls
    (dinsert (buildMap (fun v => v.attr.slug) Value.getVal vals) "id" (PyVal.vstr rid))

/-- `ObjectQuerySet.update(**kwargs)` (also the convenience path `create`
takes when a truthy `id` is present): pop `id`, merge the rest as filters,
run `update_values`, then materialize the touched values as a record.
Returns the store (changed only if persistence happened) and the result. -/
def OQS.updateOp (e : Entity) (store : List Value) (s : OQS) (kwargs : AttrMap) :
    List Value × Except PyError (OQS × AttrMap × String) :=
  let rid := match (dlookup kwargs "id").getD PyVal.none with
    | PyVal.vstr r => r
    | _ => ""
  let kwargs1 := derase kwargs "id"
  match OQS.clone e s false kwargs1 with
  | (_, some err) => (store, Except.error err)
  | (s1, Option.none) =>
    match update_values e store kwargs1 rid with
    | Except.error err => (store, Except.error err)
    | Except.ok res =>
      match prepare_values (build_eav_class e) res.2.1 res.2.2 with
      | Except.error err => (res.1, Except.error err)
      | Except.ok obj => (res.1, Except.ok (s1, obj, res.2.1))

/-- `ObjectQuerySet.create(**kwargs)` with the fresh row identifier passed
explicitly: a truthy `id` diverts to the update path; otherwise the query
state is reset, the kwargs are merged (and validated) as filters, the value
rows are bulk-created, and the created values are materialized as a record.
Returns the store after the call and the result: note that when record
materialization fails, the bulk-created values are already persisted. -/
def OQS.create (e : Entity) (store : List Value) (s : OQS) (rid : String)
    (kwargs : AttrMap) : List Value × Except PyError (OQS × AttrMap × String) :=
  if truthy ((dlookup kwargs "id").getD PyVal.none) then
    OQS.updateOp e store s kwargs
  else
    let s0 : OQS := { s with query := QueryState.init }
    match OQS.clone e s0 false kwargs with
    | (_, some err) => (store, Except.error err)
    | (s1, Option.none) =>
      match create_values e store rid kwargs with
      | Except.error err => (store, Except.error err)
      | Except.ok rv =>
        let store1 := store ++ rv.2
        match prepare_values (build_eav_class e) rv.1 rv.2 with
        | Except.error err => (store1, Except.error err)
        | Except.ok obj => (store1, Except.ok (s1, obj, rv.1))

/-! ## Concrete fixtures (the spec's example scenarios) -/

/-- The "book" entity of the example scenarios: attribute `title` (string,
required) and `pages` (integer, optional). -/
def book : Entity :=
  ⟨"Book", "book",
   [⟨"Title", "title", "string", true⟩, ⟨"Pages", "pages", "integer", false⟩]⟩

/-- The store after creating `{title: "Dune", pages: 412}` for `book` with
fresh row identifier `"row1"` on an empty store. -/
def bookStore : List Value :=
  (OQS.create book [] OQS.init "row1"
    [("title", PyVal.vstr "Dune"), ("pages", PyVal.vint 412)]).1

/-! ## Dictionary lemmas -/

theorem dlookup_dinsert_self {α : Type} (m : List (String × α)) (k : String) (v : α) :
    dlookup (dinsert m k v) k = some v := by
  induction m with
  | nil => simp [dinsert, dlookup]
  | cons kv rest ih =>
    by_cases h : kv.1 = k
    · simp [dinsert, h, dlookup]
    · simp [dinsert, h, dlookup, ih]

theorem dlookup_dinsert_ne {α : Type} (m : List (String × α)) (k k' : String) (v : α)
    (h : k' ≠ k) : dlookup (dinsert m k v) k' = dlookup m k' := by
  have hne : ¬k = k' := fun hh => h hh.symm
  induction m with
  | nil => simp [dinsert, dlookup, hne]
  | cons kv rest ih =>
    by_cases hk : kv.1 = k
    · simp [dinsert, hk, dlookup, hne]
    · by_cases hk' : kv.1 = k'
      · simp [dinsert, hk, dlookup, hk', h]
      · simp [dinsert, hk, dlookup, hk', ih]

theorem mem_dinsert {α : Type} {m : List (String × α)} {k : String} {v : α}
    {kv : String × α} (h : kv ∈ dinsert m k v) : kv = (k, v) ∨ kv ∈ m := by
  induction m with
  | nil => simpa [dinsert] using h
  | cons kv0 rest ih =>
    by_cases hk : kv0.1 = k
    · rcases (by simpa [dinsert, hk] using h : kv = (k, v) ∨ kv ∈ rest) with h' | h'
      · exact Or.inl h'
      · exact Or.inr (List.mem_cons_of_mem _ h')
    · rcases (by simpa [dinsert, hk] using h : kv = kv0 ∨ kv ∈ dinsert rest k v) with h' | h'
      · exact Or.inr (by simp [h'])
      · rcases ih h' with h'' | h''
        · exact Or.inl h''
        · exact Or.inr (List.mem_cons_of_mem _ h'')

theorem mem_dinsert_of_ne {α : Type} {m : List (String × α)} {k : String} {v : α}
    {kv : String × α} (h : kv ∈ m) (hne : kv.1 ≠ k) : kv ∈ dinsert m k v := by
  induction m with
  | nil => cases h
  | cons kv0 rest ih =>
    by_cases hk : kv0.1 = k
    · rcases List.mem_cons.1 h with rfl | h'
      · exact absurd hk hne
      · simp [dinsert, hk, h']
    · rcases List.mem_cons.1 h with rfl | h'
      · simp [dinsert, hk]
      · simp [dinsert, hk, ih h']

theorem dlookup_some_mem {α : Type} {m : List (String × α)} {k : String} {v : α}
    (h : dlookup m k = some v) : (k, v) ∈ m := by
  induction m with
  | nil => simp [dlookup] at h
  | cons kv rest ih =>
    by_cases hk : kv.1 = k
    · have h2 : kv.2 = v := by simpa [dlookup, hk] using h
      have hkv : kv = (k, v) := by rw [← hk, ← h2]
      rw [hkv]
      exact List.mem_cons_self _ _
    · exact List.mem_cons_of_mem _ (ih (by simpa [dlookup, hk] using h))

theorem dcontains_exists_mem {α : Type} {m : List (String × α)} {k : String}
    (h : dcontains m k = true) : ∃ v, (k, v) ∈ m := by
  rcases Option.isSome_iff_exists.1 h with ⟨v, hv⟩
  exact ⟨v, dlookup_some_mem hv⟩

theorem dcontains_of_mem {α : Type} {m : List (String × α)} {k : String} {v : α}
    (h : (k, v) ∈ m) : dcontains m k = true := by
  induction m with
  | nil => cases h
  | cons kv rest ih =>
    by_cases hk : kv.1 = k
    · simp [dcontains, dlookup, hk]
    · rcases List.mem_cons.1 h with rfl | h'
      · simp at hk
      · simpa [dcontains, dlookup, hk] using ih h'

theorem mem_derase_of_ne {α : Type} {m : List (String × α)} {k : String}
    {kv : String × α} (h : kv ∈ m) (hne : kv.1 ≠ k) : kv ∈ derase m k := by
  induction m with
  | nil => cases h
  | cons kv0 rest ih =>
    by_cases hk : kv0.1 = k
    · rcases List.mem_cons.1 h with rfl | h'
      · exact absurd hk hne
      · simp [derase, hk, ih h']
    · rcases List.mem_cons.1 h with rfl | h'
      · simp [derase, hk]
      · simp [derase, hk, ih h']

theorem mem_of_mem_derase {α : Type} {m : List (String × α)} {k : String}
    {kv : String × α} (h : kv ∈ derase m k) : kv ∈ m := by
  induction m with
  | nil => cases h
  | cons kv0 rest ih =>
    by_cases hk : kv0.1 = k
    · have h' : kv ∈ derase rest k := by simpa [derase, hk] using h
      exact List.mem_cons_of_mem _ (ih h')
    · rcases List.mem_cons.1 (by simpa [derase, hk] using h) with rfl | h'
      · exact List.mem_cons_self _ _
      · exact List.mem_cons_of_mem _ (ih h')

theorem mem_buildMapFrom {β α : Type} {key : β → String} {val : β → α}
    {m : List (String × α)} {l : List β} {kv : String × α}
    (h : kv ∈ buildMapFrom key val m l) : kv ∈ m ∨ ∃ x ∈ l, kv = (key x, val x) := by
  induction l generalizing m with
  | nil => exact Or.inl h
  | cons x xs ih =>
    rcases ih (by simpa [buildMapFrom] using h) with h' | ⟨y, hy, rfl⟩
    · rcases mem_dinsert h' with h'' | h''
      · exact Or.inr ⟨x, by simp, h''⟩
      · exact Or.inl h''
    · exact Or.inr ⟨y, List.mem_cons_of_mem _ hy, rfl⟩

theorem dcontains_dinsert_of {α : Type} {m : List (String × α)} {k k' : String} {v : α}
    (h : dcontains m k = true) : dcontains (dinsert m k' v) k = true := by
  by_cases hk : k = k'
  · subst hk
    simp [dcontains, dlookup_dinsert_self]
  · simpa [dcontains, dlookup_dinsert_ne m k' k v hk] using h

theorem dcontains_buildMapFrom_of_base {β α : Type} {key : β → String} {val : β → α}
    {m : List (String × α)} {l : List β} {k : String}
    (h : dcontains m k = true) : dcontains (buildMapFrom key val m l) k = true := by
  induction l generalizing m with
  | nil => exact h
  | cons x xs ih => simpa [buildMapFrom] using ih (dcontains_dinsert_of h)

theorem dcontains_buildMapFrom_of_mem {β α : Type} {key : β → String} {val : β → α}
    {m : List (String × α)} {l : List β} {x : β} (hx : x ∈ l) :
    dcontains (buildMapFrom key val m l) (key x) = true := by
  induction l generalizing m with
  | nil => cases hx
  | cons y ys ih =>
    rcases List.mem_cons.1 hx with rfl | h'
    · show dcontains (buildMapFrom key val (dinsert m (key x) (val x)) ys) (key x) = true
      exact dcontains_buildMapFrom_of_base (by simp [dcontains, dlookup_dinsert_self])
    · exact ih h'

theorem dupdate_eq_buildMapFrom {α : Type} (m l : List (String × α)) :
    dupdate m l = buildMapFrom Prod.fst Prod.snd m l := by
  induction l generalizing m with
  | nil => rfl
  | cons kv rest ih => simp [dupdate, buildMapFrom, ih]

theorem dcontains_dupdate_of_mem {α : Type} {m l : List (String × α)} {k : String}
    {v : α} (h : (k, v) ∈ l) : dcontains (dupdate m l) k = true := by
  rw [dupdate_eq_buildMapFrom]
  exact dcontains_buildMapFrom_of_mem (x := (k, v)) h

theorem mem_dupdate {α : Type} {m l : List (String × α)} {kv : String × α}
    (h : kv ∈ dupdate m l) : kv ∈ m ∨ kv ∈ l := by
  rw [dupdate_eq_buildMapFrom] at h
  rcases mem_buildMapFrom h with h' | ⟨x, hx, rfl⟩
  · exact Or.inl h'
  · exact Or.inr hx

/-! ## Query validation lemmas -/

theorem firstBadKey_none_forall {fm : List (String × String)} {l : AttrMap}
    (h : firstBadKey fm l = Option.none) : ∀ kv ∈ l, dcontains fm kv.1 = true := by
  induction l with
  | nil => intro kv hkv; cases hkv
  | cons kv0 rest ih =>
    intro kv hkv
    by_cases hc : dcontains fm kv0.1
    · rcases List.mem_cons.1 hkv with rfl | h'
      · exact hc
      · exact ih (by simpa [firstBadKey, hc] using h) _ h'
    · simp [firstBadKey, hc] at h

theorem firstBadKey_of_forall {fm : List (String × String)} {l : AttrMap}
    (h : ∀ kv ∈ l, dcontains fm kv.1 = true) : firstBadKey fm l = Option.none := by
  induction l with
  | nil => rfl
  | cons kv0 rest ih =>
    have hc := h kv0 (by simp)
    simpa [firstBadKey, hc] using ih (fun kv hkv => h kv (List.mem_cons_of_mem _ hkv))

theorem firstBadKey_some_bad {fm : List (String × String)} {l : AttrMap} {k : String}
    (h : firstBadKey fm l = some k) :
    dcontains fm k = false ∧ ∃ v, (k, v) ∈ l := by
  induction l with
  | nil => simp [firstBadKey] at h
  | cons kv0 rest ih =>
    by_cases hc : dcontains fm kv0.1
    · rcases ih (by simpa [firstBadKey, hc] using h) with ⟨h1, v, h2⟩
      exact ⟨h1, v, List.mem_cons_of_mem _ h2⟩
    · have hk : kv0.1 = k := by simpa [firstBadKey, hc] using h
      refine ⟨by simpa [← hk] using hc, kv0.2, ?_⟩
      have hkv : (k, kv0.2) = kv0 := by rw [← hk]
      rw [hkv]
      exact List.mem_cons_self _ _

theorem validate_clears_query {fm : List (String × String)} {q : QueryState}
    {k : String} {v : PyVal} (hmem : (k, v) ∈ q.query)
    (hbad : dcontains fm k = false) :
    ∃ k1, validateQuery fm q = ({ q with query := [] }, some (PyError.fieldError k1))
      ∧ dcontains fm k1 = false ∧ ∃ v1, (k1, v1) ∈ q.query := by
  cases hfb : firstBadKey fm q.query with
  | none =>
    have := firstBadKey_none_forall hfb _ hmem
    simp [this] at hbad
  | some k1 =>
    exact ⟨k1, by simp [validateQuery, hfb], (firstBadKey_some_bad hfb).1,
      (firstBadKey_some_bad hfb).2⟩

theorem validate_clears_negated {fm : List (String × String)} {q : QueryState}
    {k : String} {v : PyVal}
    (hq : ∀ kv ∈ q.query, dcontains fm kv.1 = true)
    (hmem : (k, v) ∈ q.negated_query) (hbad : dcontains fm k = false) :
    ∃ k1, validateQuery fm q = ({ q with negated_query := [] },
        some (PyError.fieldError k1))
      ∧ dcontains fm k1 = false ∧ ∃ v1, (k1, v1) ∈ q.negated_query := by
  cases hfb : firstBadKey fm q.negated_query with
  | none =>
    have := firstBadKey_none_forall hfb _ hmem
    simp [this] at hbad
  | some k1 =>
    exact ⟨k1, by simp [validateQuery, firstBadKey_of_forall hq, hfb],
      (firstBadKey_some_bad hfb).1, (firstBadKey_some_bad hfb).2⟩

theorem getQueryId_key {kwargs : AttrMap} {kid : String × PyVal}
    (h : getQueryId kwargs = some kid) : kid.1 = "id" ∨ kid.1 = "pk" := by
  by_cases h1 : truthy ((dlookup kwargs "id").getD PyVal.none)
  · left
    have : kid = ("id", (dlookup kwargs "id").getD PyVal.none) := by
      simpa [getQueryId, h1] using h.symm
    simp [this]
  · by_cases h2 : truthy ((dlookup kwargs "pk").getD PyVal.none)
    · right
      have : kid = ("pk", (dlookup kwargs "pk").getD PyVal.none) := by
        simpa [getQueryId, h1, h2] using h.symm
      simp [this]
    · simp [getQueryId, h1, h2] at h

/-! ## The claims -/

/-- C1: the round-trip fails on the code.  Creating `{title: "Dune",
pages: 412}` for the book entity succeeds, returns row identifier `"row1"`
and persists two value rows — but `get(id="row1")` on a fresh builder then
returns Python `None` instead of the created record: `Query.update` stores a
positive `id` filter into `negated_query_id` (`self.query_id` is never
assigned in the source), so `prepare` compiles the id constraint into the
exclusion dict and the fetch excludes exactly the requested row.  The last
conjunct shows the same row is correctly materialized when fetched by an
attribute filter instead, isolating the failure to the id path. -/
theorem C1_round_trip_broken :
    (okPart (OQS.create book [] OQS.init "row1"
        [("title", PyVal.vstr "Dune"), ("pages", PyVal.vint 412)]).2).map
      (fun r => r.2.2) = some "row1"
    ∧ bookStore.length = 2
    ∧ (okPart (OQS.get book bookStore OQS.init [("id", PyVal.vstr "row1")])).map
        (fun p => p.2) = some Option.none
    ∧ (okPart (OQS.get book bookStore OQS.init [("title", PyVal.vstr "Dune")])).map
        (fun p => p.2)
        = some (some [("title", PyVal.vstr "Dune"), ("pages", PyVal.vint 412),
                      ("id", PyVal.vstr "row1")]) := by
  decide

/-- C2: evaluation of the code at the failing input.  A positive (non
negated) filter on a truthy `id` raises no error and removes the key from
the generic filter dict (which stays empty), but the identifier is stored in
the `negated_query_id` slot, so the compiled predicates `prepare` produces
place it in the exclusion dict and the positive filter dict never constrains
the row identifier — the opposite of selecting that row.  The last conjunct
shows a negated `id` filter compiles to exactly the same predicates: the
exclusion behaviour the claim describes for `exclude` is what both paths
produce. -/
theorem C2_positive_id_filter_compiled_as_exclusion :
    (queryUpdate book.fieldsMap QueryState.init false [("id", PyVal.vstr "row1")]).2
      = Option.none
    ∧ (queryUpdate book.fieldsMap QueryState.init false [("id", PyVal.vstr "row1")]).1
      = ⟨[], [], Option.none, some (PyVal.vstr "row1")⟩
    ∧ prepare book.fieldsMap
        (queryUpdate book.fieldsMap QueryState.init false [("id", PyVal.vstr "row1")]).1
      = ([], [("row_id", PyVal.vstr "row1")])
    ∧ prepare book.fieldsMap
        (queryUpdate book.fieldsMap QueryState.init true [("id", PyVal.vstr "row1")]).1
      = ([], [("row_id", PyVal.vstr "row1")]) := by
  decide

/-- C5: evaluation of the code at the failing input.  Accumulating the two
valid keys `title` and `pages` compiles into a single shared dict in which
the second key's `attribute__slug` predicate has overwritten the first
key's, so only one slug pair survives instead of one conjoined pair per key;
consequently filtering the store that does contain the `{title: "Dune",
pages: 412}` row yields no candidate rows at all (no single narrow value
record can satisfy the merged conjunction). -/
theorem C5_second_key_overwrites_slug_predicate :
    (queryUpdate book.fieldsMap QueryState.init false
        [("title", PyVal.vstr "Dune"), ("pages", PyVal.vint 412)]).2 = Option.none
    ∧ prepare book.fieldsMap
        (queryUpdate book.fieldsMap QueryState.init false
          [("title", PyVal.vstr "Dune"), ("pages", PyVal.vint 412)]).1
      = ([("attribute__slug", PyVal.vstr "pages"), ("value_string", PyVal.vstr "Dune"),
          ("value_integer", PyVal.vint 412)], [])
    ∧ candidateRows book bookStore
        (queryUpdate book.fieldsMap QueryState.init false
          [("title", PyVal.vstr "Dune"), ("pages", PyVal.vint 412)]).1 = [] := by
  decide

/-- C3 counterexample: `get` with zero matching rows returns normally with
Python `None` (the `TypeError` raised by subscripting the absent cache is
caught by `__getitem__` and turned into `None`); it does not signal the
record type's `DoesNotExist` condition, which no code path ever raises. -/
theorem C3_get_zero_matches_returns_none :
    (okPart (OQS.get book [] OQS.init [("title", PyVal.vstr "Dune")])).map
      (fun p => p.2) = some Option.none
    ∧ OQS.get book [] OQS.init [("title", PyVal.vstr "Dune")]
      ≠ Except.error (PyError.doesNotExist "book") := by
  decide

/-- C6 counterexample: materializing a builder whose query matches zero rows
leaves `result_cache` as `None`, so the builder comes back in its initial
state with the executed flag set — the identical later access (this very
same call on the returned state) executes the query again instead of
reusing a cached empty result. -/
theorem C6_zero_match_materialization_not_cached :
    fetch book [] OQS.init = Except.ok (OQS.init, true)
    ∧ OQS.init.result_cache = Option.none
    ∧ (match fetch book [] OQS.init with
       | Except.ok sr => fetch book [] sr.1
       | Except.error err => Except.error err) = Except.ok (OQS.init, true) := by
  decide

/-- C9 counterexample: a `many_to_many` attribute resolves to the text type
(the `DATA_TYPES_MAP.get` fallback `str`), not to a list-of-text type. -/
theorem C9_many_to_many_resolves_to_text :
    (init_field ⟨"tags", "many_to_many", false⟩).field_type = PyType.str
    ∧ PyType.str ≠ PyType.list := by
  decide

/-- C9 amended: the resolved data-type mapping is string→text,
integer→integer, float→float, boolean→bool, date/datetime→calendar types,
json→structured dict, and file, foreign-key *and many-to-many* all resolve
to a text reference (the latter two are absent from `DATA_TYPES_MAP` and
take the `str` fallback); the synthesized descriptor carries the name, the
resolved type, the required flag and a `None` default. -/
theorem C9_type_mapping :
    (resolveFieldType "string" = PyType.str
      ∧ resolveFieldType "integer" = PyType.int
      ∧ resolveFieldType "float" = PyType.float
      ∧ resolveFieldType "boolean" = PyType.bool
      ∧ resolveFieldType "date" = PyType.date
      ∧ resolveFieldType "datetime" = PyType.datetime
      ∧ resolveFieldType "json" = PyType.dict
      ∧ resolveFieldType "file" = PyType.str
      ∧ resolveFieldType "foreign_key" = PyType.str
      ∧ resolveFieldType "many_to_many" = PyType.str)
    ∧ ∀ fi : FieldInfo,
        init_field fi = ⟨fi.name, resolveFieldType fi.data_type, fi.required, PyVal.none⟩ := by
  exact ⟨by decide, fun fi => rfl⟩

/-- C8: `Field.__set__` validation.  Assigning `None` raises the
required-field `ValueError` exactly when the descriptor is required (and
succeeds, storing `None`, when it is not); assigning a non-`None` value
whose runtime type fails `isinstance` against the resolved field type raises
`TypeError`; and assigning a compatible non-null value succeeds and is
retrievable through the descriptor afterwards.  All of this happens at
assignment time, before anything else touches the instance. -/
theorem C8_field_assignment_validation (f : Field) (d : AttrMap) (v : PyVal) :
    (Field.set f d PyVal.none = Except.error (PyError.requiredError f.name)
      ↔ f.required = true)
    ∧ (f.required = false →
        Field.set f d PyVal.none = Except.ok (dinsert d f.name PyVal.none))
    ∧ (v ≠ PyVal.none → isinstance v f.field_type = false →
        Field.set f d v = Except.error (PyError.typeError f.name))
    ∧ (v ≠ PyVal.none → isinstance v f.field_type = true →
        Field.set f d v = Except.ok (dinsert d f.name v)
          ∧ Field.get f (dinsert d f.name v) = v) := by
  refine ⟨?_, ?_, ?_, ?_⟩
  · cases hr : f.required <;> simp [Field.set, Field.setError, hr]
  · intro hr
    simp [Field.set, Field.setError, hr]
  · intro hv hty
    simp [Field.set, Field.setError, hv, hty]
  · intro hv hty
    exact ⟨by simp [Field.set, Field.setError, hv, hty],
      by simp [Field.get, dlookup_dinsert_self]⟩

/-- C8 witness: the required string field `title` accepts `"Dune"` and the
value is retrievable. -/
theorem C8_field_assignment_validation_witness :
    Field.set ⟨"title", PyType.str, true, PyVal.none⟩ [] (PyVal.vstr "Dune")
      = Except.ok [("title", PyVal.vstr "Dune")]
    ∧ Field.get ⟨"title", PyType.str, true, PyVal.none⟩ [("title", PyVal.vstr "Dune")]
      = PyVal.vstr "Dune"
    ∧ (Field.set ⟨"title", PyType.str, true, PyVal.none⟩ [] PyVal.none
        = Except.error (PyError.requiredError "title") ↔ True) := by
  have h := C8_field_assignment_validation ⟨"title", PyType.str, true, PyVal.none⟩ []
    (PyVal.vstr "Dune")
  have h4 := h.2.2.2 (by decide) (by decide)
  exact ⟨h4.1, h4.2, by simp [h.1]⟩

/-- C10 counterexample: constructing a record with the keyword argument
`pk` — a name that is not among the book record's fields — raises
`AttributeError`: the base class defines `pk` as a property with no setter,
so nothing is stored.  And retrieval of `pk` always goes through the
property, which returns the `id` field's value (here `None`), not the
instance dict entry. -/
theorem C10_pk_kwarg_raises :
    recordInit (build_eav_class book) [("pk", PyVal.vint 7)]
      = Except.error (PyError.attributeError "pk")
    ∧ dlookup (build_eav_class book).fields "pk" = Option.none
    ∧ recordGetattr (build_eav_class book) [("pk", PyVal.vint 7)] "pk"
      = some PyVal.none := by
  decide

/-- C10 amended: constructing a synthesized record with a keyword argument
whose name has no field descriptor and is not the reserved name `pk` (the
base class's setter-less property, whose assignment raises
`AttributeError`) never raises — the assignment performs no validation at
all, the value lands in the instance `__dict__` as a plain attribute, and
it is retrievable by that name afterwards. -/
theorem C10_unknown_kwarg_stored_unvalidated (cls : RecordClass) (d : AttrMap)
    (k : String) (v : PyVal) (h : dlookup cls.fields k = Option.none)
    (hpk : k ≠ "pk") :
    setattrError cls k v = Option.none
    ∧ recordSetattr cls d k v = Except.ok (dinsert d k v)
    ∧ recordGetattr cls (dinsert d k v) k = some v
    ∧ recordInit cls [(k, v)] = Except.ok [(k, v)] := by
  refine ⟨?_, ?_, ?_, ?_⟩
  · simp [setattrError, h, hpk]
  · simp [recordSetattr, setattrError, h, hpk]
  · simp [recordGetattr, h, hpk, dlookup_dinsert_self]
  · simp [recordInit, recordInitFrom, recordSetattr, setattrError, h, hpk, dinsert]

/-- C10 witness: `publisher` is not a field of the book record class and is
not the reserved `pk` name. -/
theorem C10_unknown_kwarg_stored_unvalidated_witness :
    recordSetattr (build_eav_class book) [] "publisher" (PyVal.vint 7)
      = Except.ok [("publisher", PyVal.vint 7)]
    ∧ recordGetattr (build_eav_class book) [("publisher", PyVal.vint 7)] "publisher"
      = some (PyVal.vint 7) := by
  have h := C10_unknown_kwarg_stored_unvalidated (build_eav_class book) []
    "publisher" (PyVal.vint 7) (by decide) (by decide)
  exact ⟨h.2.1, h.2.2.1⟩

/-- C7: a `filter` (or `exclude`) call containing a key that is neither the
special `id`/`pk` key nor one of the entity's field names fails with a
`FieldError` naming an unresolvable key that was passed in this call, and
the entire pending filter (respectively exclusion) dict accumulated so far —
valid earlier entries included — is reset to empty, so no partial filter
state survives in that dict. -/
theorem C7_invalid_key_discards_pending_filters (e : Entity) (q : QueryState)
    (negate : Bool) (kwargs : AttrMap) (k : String) (v : PyVal)
    (hq : ∀ kv ∈ q.query, dcontains e.fieldsMap kv.1 = true)
    (hnq : ∀ kv ∈ q.negated_query, dcontains e.fieldsMap kv.1 = true)
    (hk : (k, v) ∈ kwargs) (hbad : dcontains e.fieldsMap k = false)
    (hid : k ≠ "id") (hpk : k ≠ "pk") :
    ∃ k1, (queryUpdate e.fieldsMap q negate kwargs).2 = some (PyError.fieldError k1)
      ∧ dcontains e.fieldsMap k1 = false
      ∧ (∃ v1, (k1, v1) ∈ kwargs)
      ∧ (if negate then (queryUpdate e.fieldsMap q negate kwargs).1.negated_query
          else (queryUpdate e.fieldsMap q negate kwargs).1.query) = [] := by
  have hkid : ∀ kid : String × PyVal, getQueryId kwargs = some kid → k ≠ kid.1 := by
    intro kid hg
    rcases getQueryId_key hg with h1 | h1 <;> rw [h1] <;> assumption
  cases hgid : getQueryId kwargs with
  | none =>
    cases negate with
    | false =>
      obtain ⟨w, hw⟩ :=
        dcontains_exists_mem (dcontains_dupdate_of_mem (m := q.query) hk)
      obtain ⟨k1, hval, hb, v1, hm1⟩ :=
        validate_clears_query (q := { q with query := dupdate q.query kwargs }) hw hbad
      have hkw : (k1, v1) ∈ kwargs := by
        rcases mem_dupdate hm1 with h' | h'
        · exact absurd (hq _ h') (by simp [hb])
        · exact h'
      exact ⟨k1, by simp [queryUpdate, hgid, hval], hb, ⟨v1, hkw⟩,
        by simp [queryUpdate, hgid, hval]⟩
    | true =>
      obtain ⟨w, hw⟩ :=
        dcontains_exists_mem (dcontains_dupdate_of_mem (m := q.negated_query) hk)
      obtain ⟨k1, hval, hb, v1, hm1⟩ :=
        validate_clears_negated
          (q := { q with negated_query := dupdate q.negated_query kwargs }) hq hw hbad
      have hkw : (k1, v1) ∈ kwargs := by
        rcases mem_dupdate hm1 with h' | h'
        · exact absurd (hnq _ h') (by simp [hb])
        · exact h'
      exact ⟨k1, by simp [queryUpdate, hgid, hval], hb, ⟨v1, hkw⟩,
        by simp [queryUpdate, hgid, hval]⟩
  | some kid =>
    have hkd : (k, v) ∈ derase kwargs kid.1 := mem_derase_of_ne hk (hkid kid hgid)
    cases negate with
    | false =>
      obtain ⟨w, hw⟩ :=
        dcontains_exists_mem (dcontains_dupdate_of_mem (m := q.query) hkd)
      obtain ⟨k1, hval, hb, v1, hm1⟩ :=
        validate_clears_query
          (q := { q with
                  negated_query_id := some kid.2
                  query := dupdate q.query (derase kwargs kid.1) }) hw hbad
      have hkw : (k1, v1) ∈ kwargs := by
        rcases mem_dupdate hm1 with h' | h'
        · exact absurd (hq _ h') (by simp [hb])
        · exact mem_of_mem_derase h'
      exact ⟨k1, by simp [queryUpdate, hgid, hval], hb, ⟨v1, hkw⟩,
        by simp [queryUpdate, hgid, hval]⟩
    | true =>
      obtain ⟨w, hw⟩ :=
        dcontains_exists_mem (dcontains_dupdate_of_mem (m := q.negated_query) hkd)
      obtain ⟨k1, hval, hb, v1, hm1⟩ :=
        validate_clears_negated
          (q := { q with
                  negated_query_id := some kid.2
                  negated_query := dupdate q.negated_query (derase kwargs kid.1) })
          hq hw hbad
      have hkw : (k1, v1) ∈ kwargs := by
        rcases mem_dupdate hm1 with h' | h'
        · exact absurd (hnq _ h') (by simp [hb])
        · exact mem_of_mem_derase h'
      exact ⟨k1, by simp [queryUpdate, hgid, hval], hb, ⟨v1, hkw⟩,
        by simp [queryUpdate, hgid, hval]⟩

/-- C7 witness: filtering the book entity on the unknown key `author`
after an accumulated valid `title` filter discards the whole filter dict
and names the offending key. -/
theorem C7_invalid_key_discards_pending_filters_witness :
    ∃ k1, (queryUpdate book.fieldsMap ⟨[("title", PyVal.vstr "Dune")], [],
          Option.none, Option.none⟩ false [("author", PyVal.vstr "x")]).2
        = some (PyError.fieldError k1)
      ∧ dcontains book.fieldsMap k1 = false
      ∧ (∃ v1, (k1, v1) ∈ [("author", PyVal.vstr "x")])
      ∧ (if false then (queryUpdate book.fieldsMap ⟨[("title", PyVal.vstr "Dune")], [],
            Option.none, Option.none⟩ false [("author", PyVal.vstr "x")]).1.negated_query
          else (queryUpdate book.fieldsMap ⟨[("title", PyVal.vstr "Dune")], [],
            Option.none, Option.none⟩ false [("author", PyVal.vstr "x")]).1.query) = [] :=
  C7_invalid_key_discards_pending_filters book
    ⟨[("title", PyVal.vstr "Dune")], [], Option.none, Option.none⟩ false
    [("author", PyVal.vstr "x")] "author" (PyVal.vstr "x")
    (by decide) (by decide) (by decide) (by decide) (by decide) (by decide)

/-- C6 amended: materialization is memoized only when it left a present
cache (at least one row matched): such a builder is returned unchanged and
no query executes on later accesses.  But when a materialization matched
zero rows the cache is reset to `None` rather than an empty result, so a
later access on the returned builder executes the query again (the executed
flag is `true` once more) — re-materialization is value-idempotent, not
cached. -/
theorem C6_materialization_caching (e : Entity) (store : List Value) (s : OQS) :
    (∀ xs, s.result_cache = some xs → fetch e store s = Except.ok (s, false))
    ∧ (∀ s1 r, fetch e store s = Except.ok (s1, r) →
        s1.result_cache = Option.none →
        fetch e store s1 = Except.ok (s1, true)) := by
  constructor
  · intro xs hxs
    simp [fetch, hxs]
  · intro s1 r hf hc
    cases hcache : s.result_cache with
    | some xs =>
      have hf' : (Except.ok (s, false) : Except PyError (OQS × Bool))
          = Except.ok (s1, r) := by
        simpa [fetch, hcache] using hf
      obtain ⟨hs, hr⟩ := Prod.mk.inj (Except.ok.inj hf')
      rw [← hs, hcache] at hc
      cases hc
    | none =>
      cases hfc : fetchCompute e store s.query with
      | error err => simp [fetch, hcache, hfc] at hf
      | ok c =>
        have hf' : (Except.ok ({ s with result_cache := c }, true)
              : Except PyError (OQS × Bool))
            = Except.ok (s1, r) := by
          simpa [fetch, hcache, hfc] using hf
        obtain ⟨hs, hr⟩ := Prod.mk.inj (Except.ok.inj hf')
        subst hs
        have hcnone : c = Option.none := by simpa using hc
        subst hcnone
        simp [fetch, hfc]

/-- C6 witness: a builder holding a cached one-record result is returned
unchanged with no execution; the zero-match builder's second access
executes again. -/
theorem C6_materialization_caching_witness :
    fetch book bookStore
        ⟨QueryState.init, some [[("title", PyVal.vstr "Dune")]]⟩
      = Except.ok (⟨QueryState.init, some [[("title", PyVal.vstr "Dune")]]⟩, false)
    ∧ fetch book [] OQS.init = Except.ok (OQS.init, true) := by
  have h1 := (C6_materialization_caching book bookStore
      ⟨QueryState.init, some [[("title", PyVal.vstr "Dune")]]⟩).1
      [[("title", PyVal.vstr "Dune")]] rfl
  have h2 := (C6_materialization_caching book [] OQS.init).2 OQS.init true
      (by decide) rfl
  exact ⟨h1, h2⟩

/-- C3 amended: `get(**kwargs)` merges the criteria and materializes; when
the compiled query finds no candidate rows it returns normally with Python
`None` — it does not signal the record type's `DoesNotExist` condition —
and when materialization produced a non-empty record list it returns the
first materialized record. -/
theorem C3_get_first_or_none (e : Entity) (store : List Value) (s : OQS)
    (kwargs : AttrMap) (s1 : OQS)
    (hclone : OQS.clone e s false kwargs = (s1, Option.none))
    (hcache : s1.result_cache = Option.none) :
    (candidateRows e store s1.query = [] →
      OQS.get e store s kwargs
        = Except.ok ({ s1 with result_cache := Option.none }, Option.none))
    ∧ ∀ recs, fetchCompute e store s1.query = Except.ok (some recs) → recs ≠ [] →
      OQS.get e store s kwargs
        = Except.ok ({ s1 with result_cache := some recs }, recs.head?) := by
  constructor
  · intro hrows
    have hfc : fetchCompute e store s1.query = Except.ok Option.none := by
      simp [fetchCompute, hrows]
    simp [OQS.get, hclone, fetch, hcache, hfc, OQS.getitem]
  · intro recs hfc hne
    cases recs with
    | nil => exact absurd rfl hne
    | cons r rs =>
      simp [OQS.get, hclone, fetch, hcache, hfc, OQS.getitem]

/-- C3 witness: on the store holding the Dune row, `get(title="Dune")`
returns the materialized record; the hypotheses (successful clone, fresh
cache, non-empty materialization) hold concretely. -/
theorem C3_get_first_or_none_witness :
    OQS.get book bookStore OQS.init [("title", PyVal.vstr "Dune")]
      = Except.ok (⟨⟨[("title", PyVal.vstr "Dune")], [], Option.none, Option.none⟩,
          some [[("title", PyVal.vstr "Dune"), ("pages", PyVal.vint 412),
                 ("id", PyVal.vstr "row1")]]⟩,
        some [("title", PyVal.vstr "Dune"), ("pages", PyVal.vint 412),
              ("id", PyVal.vstr "row1")]) := by
  have h := (C3_get_first_or_none book bookStore OQS.init
      [("title", PyVal.vstr "Dune")]
      ⟨⟨[("title", PyVal.vstr "Dune")], [], Option.none, Option.none⟩, Option.none⟩
      (by decide) rfl).2
      [[("title", PyVal.vstr "Dune"), ("pages", PyVal.vint 412),
        ("id", PyVal.vstr "row1")]]
      (by decide) (by decide)
  exact h

/-! ## Lemmas about value construction and record initialization -/

theorem getVal_setVal (v : Value) (pv : PyVal) : (v.setVal pv).getVal = pv := by
  simp [Value.setVal, Value.getVal, dlookup_dinsert_self]

theorem attrsDict_mem {e : Entity} {sa : String × Attr} (h : sa ∈ attrsDict e) :
    ∃ a ∈ e.attributes, sa = (a.slug, a) := by
  rcases @mem_buildMapFrom Attr Attr Attr.slug (fun a => a) [] e.attributes sa h
    with h' | ⟨a, ha, rfl⟩
  · cases h'
  · exact ⟨a, ha, rfl⟩

theorem dlookup_attrsDict {e : Entity} {k : String} {a : Attr}
    (h : dlookup (attrsDict e) k = some a) : a.slug = k ∧ a ∈ e.attributes := by
  rcases attrsDict_mem (dlookup_some_mem h) with ⟨b, hb, heq⟩
  obtain ⟨h1, h2⟩ := Prod.mk.inj heq
  subst h2
  exact ⟨h1.symm, hb⟩

theorem providedValue_spec {e : Entity} (rid : String) {kv : String × PyVal}
    (hc : dcontains (attrsDict e) kv.1 = true) :
    (providedValue e rid kv).entity = e.slug
    ∧ (providedValue e rid kv).row_id = rid
    ∧ (providedValue e rid kv).attr.slug = kv.1
    ∧ (providedValue e rid kv).getVal = kv.2 := by
  rcases Option.isSome_iff_exists.1 hc with ⟨a, ha⟩
  have hsl := (dlookup_attrsDict ha).1
  refine ⟨?_, ?_, ?_, ?_⟩
  · simp [providedValue, ha, Value.mk0, Value.setVal]
  · simp [providedValue, ha, Value.mk0, Value.setVal]
  · simp [providedValue, ha, Value.mk0, Value.setVal, hsl]
  · simp [providedValue, ha, getVal_setVal]

theorem mapValues_ok {e : Entity} {rid : String} {l : AttrMap}
    (h : ∀ kv ∈ l, dcontains (attrsDict e) kv.1 = true) :
    mapValues e rid l = Except.ok (l.map (providedValue e rid)) := by
  induction l with
  | nil => rfl
  | cons kv rest ih =>
    have hc := h kv (by simp)
    simp [mapValues, hc, ih (fun kv2 h2 => h kv2 (List.mem_cons_of_mem _ h2))]

theorem allDistinctKeys_of_nodup {vals : List Value}
    (h : (vals.map valueKey).Nodup) : allDistinctKeys vals = true := by
  induction vals with
  | nil => rfl
  | cons v vs ih =>
    rw [List.map_cons, List.nodup_cons] at h
    have h1 : vs.any (fun w => decide (valueKey w = valueKey v)) = false := by
      rw [List.any_eq_false]
      intro w hw
      simp only [decide_eq_true_eq]
      intro heq
      exact h.1 (heq ▸ List.mem_map_of_mem valueKey hw)
    simp [allDistinctKeys, h1, ih h.2]

theorem mem_keys_dinsert {α : Type} {m : List (String × α)} {k k' : String} {v : α}
    (h : k' ∈ keys (dinsert m k v)) : k' = k ∨ k' ∈ keys m := by
  rcases List.mem_map.1 h with ⟨kv, hkv, rfl⟩
  rcases mem_dinsert hkv with rfl | h'
  · exact Or.inl rfl
  · exact Or.inr (List.mem_map_of_mem _ h')

theorem nodup_keys_dinsert {α : Type} {m : List (String × α)} (k : String) (v : α)
    (h : (keys m).Nodup) : (keys (dinsert m k v)).Nodup := by
  induction m with
  | nil => simp [dinsert, keys]
  | cons kv rest ih =>
    simp only [keys, List.map_cons, List.nodup_cons] at h
    by_cases hk : kv.1 = k
    · have hgoal : keys (dinsert (kv :: rest) k v) = k :: keys rest := by
        simp [dinsert, hk, keys]
      rw [hgoal, List.nodup_cons]
      exact ⟨hk ▸ h.1, h.2⟩
    · have h2 := ih h.2
      simp only [keys] at h2 ⊢
      simp only [dinsert, hk, if_false, List.map_cons, List.nodup_cons]
      refine ⟨?_, h2⟩
      intro hmem
      rcases mem_keys_dinsert (m := rest) hmem with rfl | h'
      · exact hk rfl
      · exact h.1 h'

theorem nodup_keys_buildMapFrom {β α : Type} {key : β → String} {val : β → α}
    {m : List (String × α)} {l : List β} (h : (keys m).Nodup) :
    (keys (buildMapFrom key val m l)).Nodup := by
  induction l generalizing m with
  | nil => exact h
  | cons x xs ih => exact ih (nodup_keys_dinsert (key x) (val x) h)

theorem dlookup_buildMapFrom_stable {β α : Type} {key : β → String} {val : β → α}
    {m : List (String × α)} {l : List β} {k : String} {v : α}
    (hm : dlookup m k = some v) (hl : ∀ y ∈ l, key y = k → val y = v) :
    dlookup (buildMapFrom key val m l) k = some v := by
  induction l generalizing m with
  | nil => exact hm
  | cons y ys ih =>
    show dlookup (buildMapFrom key val (dinsert m (key y) (val y)) ys) k = some v
    by_cases hk : key y = k
    · refine ih ?_ (fun z hz hzk => hl z (List.mem_cons_of_mem _ hz) hzk)
      rw [← hk, dlookup_dinsert_self, hl y (by simp) hk]
    · refine ih ?_ (fun z hz hzk => hl z (List.mem_cons_of_mem _ hz) hzk)
      rw [dlookup_dinsert_ne m (key y) k (val y) (fun hh => hk hh.symm)]
      exact hm

theorem dlookup_buildMapFrom_unique {β α : Type} {key : β → String} {val : β → α}
    {m : List (String × α)} {l : List β} {x : β}
    (hx : x ∈ l) (huniq : ∀ y ∈ l, key y = key x → val y = val x) :
    dlookup (buildMapFrom key val m l) (key x) = some (val x) := by
  induction l generalizing m with
  | nil => cases hx
  | cons y ys ih =>
    show dlookup (buildMapFrom key val (dinsert m (key y) (val y)) ys) (key x)
      = some (val x)
    by_cases hk : key y = key x
    · refine dlookup_buildMapFrom_stable ?_
        (fun z hz hzk => huniq z (List.mem_cons_of_mem _ hz) hzk)
      rw [← hk, dlookup_dinsert_self, huniq y (by simp) hk]
    · have hx' : x ∈ ys := by
        rcases List.mem_cons.1 hx with rfl | h'
        · exact absurd rfl hk
        · exact h'
      exact ih hx' (fun z hz hzk => huniq z (List.mem_cons_of_mem _ hz) hzk)

theorem eq_of_nodup_map {β γ : Type} {f : β → γ} {l : List β}
    (h : (l.map f).Nodup) {a b : β} (ha : a ∈ l) (hb : b ∈ l) (hf : f a = f b) :
    a = b := by
  by_contra hne
  have hp : l.Pairwise (fun x y => f x ≠ f y) := (List.pairwise_map).1 h
  have hsym : Symmetric (fun x y : β => f x ≠ f y) :=
    fun x y hxy hyx => hxy hyx.symm
  exact (List.Pairwise.forall hsym hp ha hb hne) hf

theorem recordInitFrom_error {cls : RecordClass} {l : AttrMap} {err : PyError}
    (h : initFirstErr cls l = some err) (d : AttrMap) :
    recordInitFrom cls d l = Except.error err := by
  induction l generalizing d with
  | nil => simp [initFirstErr] at h
  | cons kv rest ih =>
    cases hse : setattrError cls kv.1 kv.2 with
    | some e =>
      have he : e = err := by simpa [initFirstErr, hse] using h
      subst he
      simp [recordInitFrom, recordSetattr, hse]
    | none =>
      have h' : initFirstErr cls rest = some err := by simpa [initFirstErr, hse] using h
      simp [recordInitFrom, recordSetattr, hse, ih h']

theorem initFirstErr_required {cls : RecordClass} {l : AttrMap}
    (hall : ∀ kv ∈ l, setattrError cls kv.1 kv.2 = Option.none
      ∨ ∃ f, setattrError cls kv.1 kv.2 = some (PyError.requiredError f))
    (hex : ∃ kv ∈ l, setattrError cls kv.1 kv.2 ≠ Option.none) :
    ∃ f, initFirstErr cls l = some (PyError.requiredError f) := by
  induction l with
  | nil =>
    rcases hex with ⟨kv, h1, _⟩
    cases h1
  | cons kv0 rest ih =>
    cases hse : setattrError cls kv0.1 kv0.2 with
    | some e =>
      rcases hall kv0 (by simp) with h1 | ⟨f, h1⟩
      · rw [hse] at h1
        cases h1
      · rw [hse] at h1
        obtain rfl := Option.some.inj h1
        exact ⟨f, by simp [initFirstErr, hse]⟩
    | none =>
      have hex' : ∃ kv ∈ rest, setattrError cls kv.1 kv.2 ≠ Option.none := by
        rcases hex with ⟨kv, hkv, hne⟩
        rcases List.mem_cons.1 hkv with rfl | h'
        · rw [hse] at hne
          exact absurd rfl hne
        · exact ⟨kv, h', hne⟩
      rcases ih (fun kv h2 => hall kv (List.mem_cons_of_mem _ h2)) hex' with ⟨f, hf⟩
      exact ⟨f, by simp [initFirstErr, hse, hf]⟩

theorem dcontains_fieldsMap_of_attrs {e : Entity} {k : String}
    (h : dcontains (attrsDict e) k = true) : dcontains e.fieldsMap k = true := by
  obtain ⟨a, ha⟩ := dcontains_exists_mem h
  rcases attrsDict_mem ha with ⟨b, hb, heq⟩
  obtain ⟨h1, h2⟩ := Prod.mk.inj heq
  subst h1
  have hmem : (⟨b.slug, b.data_type, b.required⟩ : FieldInfo) ∈ e.getFields :=
    List.mem_cons_of_mem _ (List.mem_map_of_mem _ hb)
  exact @dcontains_buildMapFrom_of_mem FieldInfo String FieldInfo.name
    FieldInfo.data_type [] e.getFields _ hmem

theorem dlookup_class_fields_id (e : Entity) :
    dlookup (build_eav_class e).fields "id"
      = some ⟨"id", PyType.str, true, PyVal.none⟩ := by
  simp [build_eav_class, dlookup_dinsert_self]

theorem dlookup_class_fields_attr {e : Entity} {a : Attr}
    (hslugs : (e.attributes.map Attr.slug).Nodup)
    (hnoid : a.slug ≠ "id") (ha : a ∈ e.attributes) :
    dlookup (build_eav_class e).fields a.slug
      = some (init_field ⟨a.slug, a.data_type, a.required⟩) := by
  have hstep : dlookup (build_eav_class e).fields a.slug
      = dlookup (buildMap FieldInfo.name init_field e.getFields) a.slug := by
    simp only [build_eav_class]
    exact dlookup_dinsert_ne _ "id" a.slug _ hnoid
  rw [hstep]
  have hx : (⟨a.slug, a.data_type, a.required⟩ : FieldInfo) ∈ e.getFields :=
    List.mem_cons_of_mem _ (List.mem_map_of_mem _ ha)
  have huniq : ∀ y ∈ e.getFields, y.name = a.slug →
      init_field y = init_field ⟨a.slug, a.data_type, a.required⟩ := by
    intro y hy hname
    rcases List.mem_cons.1 hy with rfl | hy'
    · exact absurd hname.symm hnoid
    · rcases List.mem_map.1 hy' with ⟨b, hb, rfl⟩
      have hbslug : b.slug = a.slug := hname
      have hba : b = a := eq_of_nodup_map hslugs hb ha hbslug
      rw [hba]
  exact dlookup_buildMapFrom_unique
    (x := (⟨a.slug, a.data_type, a.required⟩ : FieldInfo)) hx huniq

/-- C4 counterexample: creating `{pages: 100}` for the book entity (the
required `title` omitted) does raise the required-field `ValueError` for
`title`, but only AFTER the storage write: the two value rows (the provided
`pages` value and the empty placeholder for `title`) are persisted by
`bulk_create`, and only the subsequent record materialization in
`__prepare_values` fails. -/
theorem C4_missing_required_persists_then_errors :
    (OQS.create book [] OQS.init "row1" [("pages", PyVal.vint 100)]).2
      = Except.error (PyError.requiredError "title")
    ∧ (OQS.create book [] OQS.init "row1" [("pages", PyVal.vint 100)]).1.length = 2 := by
  decide

/-- C4 amended: for every entity with a required attribute omitted from the
input (and well-formed inputs: distinct slugs, no attribute shadowing
`id`, a fresh row identifier, valid keys whose values pass field
validation, and no omitted `many_to_many` attribute, whose empty-list
placeholder would raise `TypeError` instead), `create` fails with a
required-field validation error — but only after the storage write: the
provided values and one empty placeholder per omitted attribute are
persisted, and the error is raised when the result record is materialized. -/
theorem C4_create_missing_required_errors_after_write (e : Entity)
    (store : List Value) (s : OQS) (rid : String) (kwargs : AttrMap)
    (hslugs : (e.attributes.map Attr.slug).Nodup)
    (hnoidattr : ∀ a ∈ e.attributes, a.slug ≠ "id")
    (hfresh : ∀ v ∈ store, v.entity = e.slug → v.row_id ≠ rid)
    (hkeysnodup : (kwargs.map Prod.fst).Nodup)
    (hnoid : dcontains kwargs "id" = false)
    (hnopk : dcontains kwargs "pk" = false)
    (hkeys : ∀ kv ∈ kwargs, dcontains (attrsDict e) kv.1 = true)
    (hok : ∀ kv ∈ kwargs, setattrError (build_eav_class e) kv.1 kv.2 = Option.none)
    (hnom2m : ∀ a ∈ e.attributes, dcontains kwargs a.slug = false →
        a.data_type ≠ "many_to_many")
    (hmissing : ∃ a ∈ e.attributes, a.required = true ∧ dcontains kwargs a.slug = false) :
    ∃ f1, OQS.create e store s rid kwargs
        = (store ++ (kwargs.map (providedValue e rid) ++ createPlaceholders e rid kwargs),
           Except.error (PyError.requiredError f1))
      ∧ createPlaceholders e rid kwargs ≠ [] := by
  obtain ⟨a0, ha0, ha0req, ha0nc⟩ := hmissing
  -- the special keys are absent, so the update path is not taken and the
  -- kwargs survive `get_id` untouched
  have hid0 : dlookup kwargs "id" = Option.none := by
    cases hdl : dlookup kwargs "id" with
    | none => rfl
    | some v => simp [dcontains, hdl] at hnoid
  have hpk0 : dlookup kwargs "pk" = Option.none := by
    cases hdl : dlookup kwargs "pk" with
    | none => rfl
    | some v => simp [dcontains, hdl] at hnopk
  have hgid : getQueryId kwargs = Option.none := by
    simp [getQueryId, hid0, hpk0, truthy]
  have hidf : truthy ((dlookup kwargs "id").getD PyVal.none) = false := by
    simp [hid0, truthy]
  -- the omitted required attribute contributes a placeholder
  have ha0slug : dlookup (attrsDict e) a0.slug = some a0 := by
    exact dlookup_buildMapFrom_unique (m := []) (x := a0) ha0
      (fun b hb hsb => eq_of_nodup_map hslugs hb ha0 hsb)
  have ha0pair : (a0.slug, a0)
      ∈ (attrsDict e).filter (fun sa => !dcontains kwargs sa.1) :=
    List.mem_filter.2 ⟨dlookup_some_mem ha0slug, by simp [ha0nc]⟩
  have ha0ph : Value.mk0 e.slug a0 rid ∈ createPlaceholders e rid kwargs := by
    have h1 := List.mem_map_of_mem
      (fun sa : String × Attr => Value.mk0 e.slug sa.2 rid) ha0pair
    simpa [createPlaceholders] using h1
  have hphne : createPlaceholders e rid kwargs ≠ [] := by
    intro hnil
    rw [hnil] at ha0ph
    cases ha0ph
  -- every created value carries the entity slug and the fresh row id
  have hvals_ent_rid : ∀ v ∈ kwargs.map (providedValue e rid)
        ++ createPlaceholders e rid kwargs,
      v.entity = e.slug ∧ v.row_id = rid := by
    intro v hv
    rcases List.mem_append.1 hv with hv' | hv'
    · rcases List.mem_map.1 hv' with ⟨kv, hkv, rfl⟩
      exact ⟨(providedValue_spec rid (hkeys kv hkv)).1,
        (providedValue_spec rid (hkeys kv hkv)).2.1⟩
    · simp only [createPlaceholders] at hv'
      rcases List.mem_map.1 hv' with ⟨sa, hsa, rfl⟩
      exact ⟨rfl, rfl⟩
  -- the slugs of the created values are pairwise distinct
  have hprov_slugs : (kwargs.map (providedValue e rid)).map (fun v => v.attr.slug)
      = kwargs.map Prod.fst := by
    rw [List.map_map]
    exact List.map_congr_left (fun kv hkv => (providedValue_spec rid (hkeys kv hkv)).2.2.1)
  have hph_slugs : (createPlaceholders e rid kwargs).map (fun v => v.attr.slug)
      = ((attrsDict e).filter (fun sa => !dcontains kwargs sa.1)).map
          (fun sa => sa.1) := by
    simp only [createPlaceholders, List.map_map]
    refine List.map_congr_left (fun sa hsa => ?_)
    rcases attrsDict_mem (List.mem_filter.1 hsa).1 with ⟨b, hb, rfl⟩
    rfl
  have hph_keys_nodup :
      ((((attrsDict e).filter (fun sa => !dcontains kwargs sa.1)).map
        (fun sa => sa.1))).Nodup := by
    have h1 : (keys (attrsDict e)).Nodup :=
      nodup_keys_buildMapFrom (by simp [keys])
    exact h1.sublist ((List.filter_sublist (attrsDict e)).map (fun sa => sa.1))
  have hdisj : List.Disjoint (kwargs.map Prod.fst)
      (((attrsDict e).filter (fun sa => !dcontains kwargs sa.1)).map
        (fun sa => sa.1)) := by
    intro k hk1 hk2
    rcases List.mem_map.1 hk1 with ⟨kv, hkv, rfl⟩
    rcases List.mem_map.1 hk2 with ⟨sa, hsa, hsk⟩
    have hc2 : dcontains kwargs sa.1 = false := by
      have := (List.mem_filter.1 hsa).2
      simpa using this
    have hc1 : dcontains kwargs kv.1 = true := dcontains_of_mem (v := kv.2) hkv
    rw [hsk] at hc2
    rw [hc1] at hc2
    cases hc2
  have hvals_slugs_nodup :
      ((kwargs.map (providedValue e rid) ++ createPlaceholders e rid kwargs).map
        (fun v => v.attr.slug)).Nodup := by
    rw [List.map_append, hprov_slugs, hph_slugs]
    exact List.Nodup.append hkeysnodup hph_keys_nodup hdisj
  have hkeys_nodup :
      ((kwargs.map (providedValue e rid) ++ createPlaceholders e rid kwargs).map
        valueKey).Nodup := by
    have hmapeq : (kwargs.map (providedValue e rid)
          ++ createPlaceholders e rid kwargs).map valueKey
        = ((kwargs.map (providedValue e rid)
            ++ createPlaceholders e rid kwargs).map (fun v => v.attr.slug)).map
          (fun sl => (e.slug, sl, rid)) := by
      rw [List.map_map]
      refine List.map_congr_left (fun v hv => ?_)
      obtain ⟨h1, h2⟩ := hvals_ent_rid v hv
      simp [valueKey, h1, h2]
    rw [hmapeq]
    refine hvals_slugs_nodup.map ?_
    intro sl1 sl2 hsl
    have := (Prod.mk.inj (Prod.mk.inj hsl).2).1
    exact this
  -- the bulk create does not violate the uniqueness constraint
  have hic : integrityConflict store
      (kwargs.map (providedValue e rid) ++ createPlaceholders e rid kwargs) = false := by
    unfold integrityConflict
    rw [Bool.or_eq_false_iff]
    constructor
    · rw [List.any_eq_false]
      intro v hv
      rw [Bool.not_eq_true, List.any_eq_false]
      intro w hw
      simp only [decide_eq_true_eq]
      intro heq
      obtain ⟨h1, h2⟩ := hvals_ent_rid v hv
      have hent : w.entity = e.slug := by
        have := (Prod.mk.inj heq).1
        rw [this, valueKey] at *
        exact h1
      have hrow : w.row_id = rid := by
        have := (Prod.mk.inj (Prod.mk.inj heq).2).2
        rw [this]
        exact h2
      exact hfresh w hw hent hrow
    · simp [allDistinctKeys_of_nodup hkeys_nodup]
  have hcv : create_values e store rid kwargs
      = Except.ok (rid, kwargs.map (providedValue e rid)
          ++ createPlaceholders e rid kwargs) := by
    simp [create_values, mapValues_ok hkeys, hic]
  -- analysing the record constructed from the written values: every entry
  -- either passes field validation or is an omitted required attribute
  have hall : ∀ kv ∈ dinsert (buildMap (fun v => v.attr.slug) Value.getVal
        (kwargs.map (providedValue e rid) ++ createPlaceholders e rid kwargs))
        "id" (PyVal.vstr rid),
      setattrError (build_eav_class e) kv.1 kv.2 = Option.none
      ∨ ∃ f, setattrError (build_eav_class e) kv.1 kv.2
          = some (PyError.requiredError f) := by
    intro kv hkv
    rcases mem_dinsert hkv with rfl | hkv'
    · left
      simp [setattrError, dlookup_class_fields_id, Field.setError, isinstance]
    · rcases mem_buildMapFrom (m := []) hkv' with h' | ⟨v, hv, rfl⟩
      · cases h'
      · rcases List.mem_append.1 hv with hvp | hvph
        · rcases List.mem_map.1 hvp with ⟨kv0, hkv0, rfl⟩
          left
          have hs := providedValue_spec rid (hkeys kv0 hkv0)
          show setattrError (build_eav_class e)
            ((providedValue e rid kv0).attr.slug) ((providedValue e rid kv0).getVal)
            = Option.none
          rw [hs.2.2.1, hs.2.2.2]
          exact hok kv0 hkv0
        · simp only [createPlaceholders] at hvph
          rcases List.mem_map.1 hvph with ⟨sa, hsa, rfl⟩
          rcases attrsDict_mem (List.mem_filter.1 hsa).1 with ⟨b, hb, rfl⟩
          have hbnc : dcontains kwargs b.slug = false := by
            have := (List.mem_filter.1 hsa).2
            simpa using this
          have hgv : (Value.mk0 e.slug b rid).getVal = PyVal.none := by
            simp [Value.mk0, Value.getVal, dlookup, hnom2m b hb hbnc]
          have hlf := dlookup_class_fields_attr hslugs (hnoidattr b hb) hb
          show setattrError (build_eav_class e)
            ((Value.mk0 e.slug b rid).attr.slug) ((Value.mk0 e.slug b rid).getVal)
            = Option.none
            ∨ ∃ f, setattrError (build_eav_class e)
                ((Value.mk0 e.slug b rid).attr.slug) ((Value.mk0 e.slug b rid).getVal)
              = some (PyError.requiredError f)
          rw [hgv]
          cases hreq : b.required with
          | false =>
            left
            simp [setattrError, Value.mk0, hlf, init_field, Field.setError, hreq]
          | true =>
            right
            exact ⟨b.slug,
              by simp [setattrError, Value.mk0, hlf, init_field, Field.setError, hreq]⟩
  -- the omitted required attribute's entry is present and fails
  have hx0 : Value.mk0 e.slug a0 rid
      ∈ kwargs.map (providedValue e rid) ++ createPlaceholders e rid kwargs :=
    List.mem_append.2 (Or.inr ha0ph)
  have hgv0 : (Value.mk0 e.slug a0 rid).getVal = PyVal.none := by
    simp [Value.mk0, Value.getVal, dlookup, hnom2m a0 ha0 ha0nc]
  have hmem0 : (a0.slug, PyVal.none)
      ∈ dinsert (buildMap (fun v => v.attr.slug) Value.getVal
          (kwargs.map (providedValue e rid) ++ createPlaceholders e rid kwargs))
        "id" (PyVal.vstr rid) := by
    refine mem_dinsert_of_ne ?_ (hnoidattr a0 ha0)
    have huniq : ∀ w ∈ kwargs.map (providedValue e rid)
          ++ createPlaceholders e rid kwargs,
        (fun v : Value => v.attr.slug) w
            = (fun v : Value => v.attr.slug) (Value.mk0 e.slug a0 rid) →
          Value.getVal w = Value.getVal (Value.mk0 e.slug a0 rid) := by
      intro w hw hsl
      rw [eq_of_nodup_map hvals_slugs_nodup hw hx0 hsl]
    have hlk := dlookup_buildMapFrom_unique (m := []) hx0 huniq
    rw [hgv0] at hlk
    exact dlookup_some_mem hlk
  have hex : ∃ kv ∈ dinsert (buildMap (fun v => v.attr.slug) Value.getVal
        (kwargs.map (providedValue e rid) ++ createPlaceholders e rid kwargs))
        "id" (PyVal.vstr rid),
      setattrError (build_eav_class e) kv.1 kv.2 ≠ Option.none := by
    refine ⟨(a0.slug, PyVal.none), hmem0, ?_⟩
    have hlf := dlookup_class_fields_attr hslugs (hnoidattr a0 ha0) ha0
    simp [setattrError, hlf, init_field, Field.setError, ha0req]
  obtain ⟨f1, hferr⟩ := initFirstErr_required hall hex
  have hpv : prepare_values (build_eav_class e) rid
      (kwargs.map (providedValue e rid) ++ createPlaceholders e rid kwargs)
      = Except.error (PyError.requiredError f1) := by
    show recordInit (build_eav_class e) _ = _
    rw [recordInit]
    exact recordInitFrom_error hferr []
  -- the filter-merge performed by `_clone` validates successfully
  have hfbq : firstBadKey e.fieldsMap (dupdate [] kwargs) = Option.none :=
    firstBadKey_of_forall (fun kv hkv => by
      rcases mem_dupdate hkv with h' | h'
      · cases h'
      · exact dcontains_fieldsMap_of_attrs (hkeys kv h'))
  have hcl : OQS.clone e { s with query := QueryState.init } false kwargs
      = ({ s with query := ⟨dupdate [] kwargs, [], Option.none, Option.none⟩ },
         Option.none) := by
    simp [OQS.clone, queryUpdate, hgid, QueryState.init, validateQuery, hfbq,
      firstBadKey]
  -- assemble the whole create call
  refine ⟨f1, ?_, hphne⟩
  simp only [OQS.create, hidf, Bool.false_eq_true, if_false, hcl, hcv, hpv]

/-- C4 witness: the book entity with `{pages: 100}` (required `title`
omitted) and a fresh row identifier on an empty store. -/
theorem C4_create_missing_required_errors_after_write_witness :
    ∃ f1, OQS.create book [] OQS.init "row9" [("pages", PyVal.vint 100)]
        = ([] ++ ([("pages", PyVal.vint 100)].map (providedValue book "row9")
            ++ createPlaceholders book "row9" [("pages", PyVal.vint 100)]),
           Except.error (PyError.requiredError f1))
      ∧ createPlaceholders book "row9" [("pages", PyVal.vint 100)] ≠ [] :=
  C4_create_missing_required_errors_after_write book [] OQS.init "row9"
    [("pages", PyVal.vint 100)] (by decide) (by decide) (by decide) (by decide)
    (by decide) (by decide) (by decide) (by decide) (by decide) (by decide)

end EAV
